import Mathlib

/-!
Verification of the room/session/usage core of the livekitagent repository.

The persisted data model is embedded from the SQL schema (`CREATE TABLE users /
room / sessions / summary / plans / payments`, the `create_user_room` trigger,
the unique indexes and the row-level-security policies).  UUID columns are
modelled as `String`, timestamps as `Nat`, `NULL`able columns as `Option`.
Server-side operations that are not part of the supplied source (the HTTP
backend behind `/api/sessions/start`, `/api/sessions/{id}/end`,
`/api/payments/...`) are modelled from the spec and are marked as such in
their doc comments.
-/

namespace Vent

/-- The `room_condition` enum from the schema: `CREATE TYPE room_condition AS ENUM ('on', 'off')`. -/
inductive RoomCondition where
  | on
  | off
deriving DecidableEq, Repr

/-- The `payment_status` enum after all migrations:
`CREATE TYPE payment_status AS ENUM ('active','cancelled','failed','paused')`,
then `ALTER TYPE payment_status ADD VALUE 'created'` and
`ALTER TYPE payment_status ADD VALUE 'past_due'`. -/
inductive PaymentStatus where
  | active
  | cancelled
  | failed
  | paused
  | created
  | past_due
deriving DecidableEq, Repr

/-- A row of the `users` table (`id` PK, `name`, `age`, `trial_seconds_used`). -/
structure UserRow where
  id : String
  name : String
  age : Option Nat
  trial_seconds_used : Nat
deriving DecidableEq, Repr

/-- A row of the `room` table (`id` PK, `user_id` FK, `room_name` UNIQUE,
`room_condition` defaulting to `'off'`). -/
structure RoomRow where
  id : String
  user_id : String
  room_name : String
  room_condition : RoomCondition
deriving DecidableEq, Repr

/-- A row of the `sessions` table (`id` PK, `user_id` FK, `room_id` FK,
`started_at`, nullable `finished_at`). -/
structure SessionRow where
  id : String
  user_id : String
  room_id : String
  started_at : Nat
  finished_at : Option Nat
deriving DecidableEq, Repr

/-- A row of the `payments` table (`id` PK, `user_id` FK, `status`,
`session_limit`, `session_used`). -/
structure PaymentRow where
  id : String
  user_id : String
  status : PaymentStatus
  session_limit : Nat
  session_used : Nat
deriving DecidableEq, Repr

/-- The persisted state: the contents of the four tables the core touches. -/
structure DB where
  users : List UserRow
  rooms : List RoomRow
  sessions : List SessionRow
  payments : List PaymentRow
deriving DecidableEq, Repr

/-- The sessions of user `uid` that are OPEN (null `finished_at`). -/
def openSessions (db : DB) (uid : String) : List SessionRow :=
  db.sessions.filter (fun s => s.user_id == uid && s.finished_at.isNone)

/-- The rooms belonging to user `uid`. -/
def roomsOf (db : DB) (uid : String) : List RoomRow :=
  db.rooms.filter (fun r => r.user_id == uid)

/-- The constraints the schema DDL actually declares, and nothing more:
primary-key uniqueness on each table, `room.room_name` UNIQUE,
the unique index `idx_room_user_unique ON room(user_id)`, and the
foreign keys `room.user_id`, `sessions.user_id`, `sessions.room_id`,
`payments.user_id`.  (`NOT NULL` constraints are carried by the Lean types.)
The schema declares no constraint at all on `sessions.finished_at`. -/
def schemaOk (db : DB) : Bool :=
  (db.users.map (fun u => u.id)).Nodup
    && (db.rooms.map (fun r => r.id)).Nodup
    && (db.rooms.map (fun r => r.room_name)).Nodup
    && (db.rooms.map (fun r => r.user_id)).Nodup
    && (db.sessions.map (fun s => s.id)).Nodup
    && (db.payments.map (fun p => p.id)).Nodup
    && db.rooms.all (fun r => db.users.any (fun u => u.id == r.user_id))
    && db.sessions.all (fun s =>
        db.users.any (fun u => u.id == s.user_id)
          && db.rooms.any (fun r => r.id == s.room_id))
    && db.payments.all (fun p => db.users.any (fun u => u.id == p.user_id))

/-- The room name the `create_user_room` trigger inserts for a new user:
`'room_' || NEW.id`. -/
def create_user_room_name (userId : String) : String :=
  "room_" ++ userId

/-- The row the `create_user_room` trigger inserts
(`INSERT INTO room (user_id, room_name) VALUES (NEW.id, 'room_' || NEW.id)`;
`room_condition` takes its schema default `'off'`). -/
def create_user_room (roomId : String) (userId : String) : RoomRow :=
  { id := roomId
    user_id := userId
    room_name := create_user_room_name userId
    room_condition := RoomCondition.off }

end Vent

namespace Vent

/-! ### Row-level security policies (from the `CREATE POLICY` statements) -/

/-- The four tables on which the schema enables row-level security. -/
inductive RlsTable where
  | usersT
  | roomT
  | sessionsT
  | summaryT
deriving DecidableEq, Repr

/-- The SQL operation kinds RLS policies discriminate on. -/
inductive SqlOp where
  | selectOp
  | insertOp
  | updateOp
  | deleteOp
deriving DecidableEq, Repr

/-- Whether a row-level operation is permitted, following the `CREATE POLICY`
statements of the schema literally: `users` has SELECT/UPDATE policies with
`USING (auth.uid() = id)`; `room` has SELECT/UPDATE with
`USING (auth.uid() = user_id)`; `sessions` has SELECT/UPDATE `USING` and
INSERT `WITH CHECK (auth.uid() = user_id)`; `summary` has SELECT `USING` and
INSERT `WITH CHECK (auth.uid() = user_id)`.  RLS is enabled on all four
tables, so an operation with no declared policy is denied. -/
def rlsAllows (t : RlsTable) (op : SqlOp) (authUid : String) (rowOwner : String) : Bool :=
  match t, op with
  | RlsTable.usersT, SqlOp.selectOp => authUid == rowOwner
  | RlsTable.usersT, SqlOp.updateOp => authUid == rowOwner
  | RlsTable.roomT, SqlOp.selectOp => authUid == rowOwner
  | RlsTable.roomT, SqlOp.updateOp => authUid == rowOwner
  | RlsTable.sessionsT, SqlOp.selectOp => authUid == rowOwner
  | RlsTable.sessionsT, SqlOp.insertOp => authUid == rowOwner
  | RlsTable.sessionsT, SqlOp.updateOp => authUid == rowOwner
  | RlsTable.summaryT, SqlOp.selectOp => authUid == rowOwner
  | RlsTable.summaryT, SqlOp.insertOp => authUid == rowOwner
  | _, _ => false

/-! ### Status vocabularies (schema enum vs. what the usage endpoint reports) -/

/-- The values of the `payment_status` enum in creation order: the original
`('active','cancelled','failed','paused')` followed by the two
`ALTER TYPE ... ADD VALUE` migrations. -/
def payment_status_values : List String :=
  ["active", "cancelled", "failed", "paused"] ++ ["created"] ++ ["past_due"]

/-- The status vocabulary the claim asserts for every reported value:
created/active/past_due/paused/cancelled/failed. -/
def claimedStatusVocabulary : List String :=
  ["created", "active", "past_due", "paused", "cancelled", "failed"]

/-- The values of the `status` field of the usage endpoint's response, as the
client types it (`PaymentStatus.status` in `payment.tsx`):
`"active" | "past_due" | "cancelled" | "paused" | "completed" | "no_plan"`. -/
def usageEndpointStatusValues : List String :=
  ["active", "past_due", "cancelled", "paused", "completed", "no_plan"]

end Vent

namespace Vent

/-- The SQL literal of each `payment_status` enum value. -/
def statusToSql : PaymentStatus → String
  | PaymentStatus.active => "active"
  | PaymentStatus.cancelled => "cancelled"
  | PaymentStatus.failed => "failed"
  | PaymentStatus.paused => "paused"
  | PaymentStatus.created => "created"
  | PaymentStatus.past_due => "past_due"

/-- A database state with one user, its room, and two sessions for that user
that both have a null `finished_at`. -/
def dbTwoOpen : DB :=
  { users := [{ id := "u1", name := "A", age := none, trial_seconds_used := 0 }]
    rooms := [{ id := "r1", user_id := "u1", room_name := "room_u1",
                room_condition := RoomCondition.off }]
    sessions :=
      [{ id := "s1", user_id := "u1", room_id := "r1", started_at := 0,
         finished_at := none },
       { id := "s2", user_id := "u1", room_id := "r1", started_at := 1,
         finished_at := none }]
    payments := [] }

/-- Claim C1, counterexample: it is not the case that every state satisfying the
persisted schema's constraints has at most one OPEN session per user —
`dbTwoOpen` satisfies every constraint the DDL declares, yet holds two
sessions of user `u1` with a null end timestamp.  The schema has no unique
partial index on `sessions`. -/
theorem schemaOk_not_single_open_cex :
    ¬ (∀ db : DB, schemaOk db = true → ∀ uid : String,
        (openSessions db uid).length ≤ 1) := by
  intro h
  have h2 := h dbTwoOpen (by decide) "u1"
  have h3 : (openSessions dbTwoOpen "u1").length = 2 := by decide
  omega

/-- Claim C1, amended: the persisted schema does not enforce the single-OPEN-session
invariant: a state with two null-end-timestamp Session rows for the same user
satisfies every declared schema constraint (there is no unique partial
constraint on one null-end-timestamp row per user), so the invariant can only
be maintained by the application layer, not atomically by the schema. -/
theorem schema_does_not_enforce_single_open :
    schemaOk dbTwoOpen = true ∧ (openSessions dbTwoOpen "u1").length = 2 := by
  constructor
  · decide
  · decide

/-- Claim C7, counterexample: the usage endpoint's status field (as typed by the
client in `payment.tsx`) includes the value `"no_plan"`, which is outside the
claimed vocabulary created/active/past_due/paused/cancelled/failed. -/
theorem usage_status_outside_claimed_vocab_cex :
    "no_plan" ∈ usageEndpointStatusValues
      ∧ "no_plan" ∉ claimedStatusVocabulary := by
  constructor
  · decide
  · decide

/-- Claim C7, amended: the persisted `payment_status` enum is exactly the fixed
vocabulary {created, active, past_due, paused, cancelled, failed} and every
stored subscription status is drawn from it; but the usage endpoint's
reported status field ranges over
{active, past_due, cancelled, paused, completed, no_plan}, which both adds
values (`completed`, `no_plan`) outside that vocabulary and omits `created`
and `failed`. -/
theorem payment_status_vocabularies :
    (∀ s : String, s ∈ payment_status_values ↔ s ∈ claimedStatusVocabulary)
      ∧ (∀ p : PaymentRow, statusToSql p.status ∈ payment_status_values)
      ∧ ("completed" ∈ usageEndpointStatusValues
          ∧ "completed" ∉ claimedStatusVocabulary)
      ∧ ("created" ∈ claimedStatusVocabulary
          ∧ "created" ∉ usageEndpointStatusValues)
      ∧ ("failed" ∈ claimedStatusVocabulary
          ∧ "failed" ∉ usageEndpointStatusValues) := by
  refine ⟨?_, ?_, by decide, by decide, by decide⟩
  · intro s
    simp only [payment_status_values, claimedStatusVocabulary, List.mem_append,
      List.mem_cons, List.mem_singleton, List.not_mem_nil, or_false]
    tauto
  · intro p
    cases h : p.status <;> simp [statusToSql, payment_status_values]

/-- Claim C9: the trigger-assigned room name is `'room_' ||` the user id, so the
assignment is injective: distinct user ids receive distinct room names, and
the auto-created room names of any duplicate-free list of user ids are again
duplicate-free — the UNIQUE constraint on `room_name` is never violated by
auto-creation. -/
theorem create_user_room_name_injective :
    (∀ a b : String, a ≠ b → create_user_room_name a ≠ create_user_room_name b)
      ∧ (∀ ids : List String, ids.Nodup →
          (ids.map create_user_room_name).Nodup) := by
  have hinj : Function.Injective create_user_room_name := by
    intro a b h
    have hd := congrArg String.data h
    simp only [create_user_room_name, String.data_append] at hd
    exact String.ext (List.append_cancel_left hd)
  constructor
  · intro a b hne heq
    exact hne (hinj heq)
  · intro ids hnd
    exact hnd.map (f := create_user_room_name) hinj

/-- Claim C9, witness: two concrete distinct user ids get distinct room names, and a
concrete duplicate-free id list maps to a duplicate-free name list. -/
theorem create_user_room_name_injective_witness :
    create_user_room_name "u1" ≠ create_user_room_name "u2"
      ∧ ((["u1", "u2"].map create_user_room_name).Nodup) :=
  ⟨create_user_room_name_injective.1 "u1" "u2" (by decide),
   create_user_room_name_injective.2 ["u1", "u2"] (by decide)⟩

/-- Claim C10: the row-level-security policies are user-isolating: for any two
distinct user ids, no SELECT, INSERT, UPDATE or DELETE is permitted by any
policy on `users`, `room`, `sessions` or `summary` against a row owned by the
other user — every declared policy requires `auth.uid()` to equal the row's
owner id, and operations without a policy are denied outright. -/
theorem rls_user_isolated :
    ∀ (t : RlsTable) (op : SqlOp) (a b : String), a ≠ b →
      rlsAllows t op a b = false := by
  intro t op a b h
  cases t <;> cases op <;>
    simp [rlsAllows, beq_eq_false_iff_ne, h]

/-- Claim C10, witness: a concrete cross-user access attempt is denied. -/
theorem rls_user_isolated_witness :
    rlsAllows RlsTable.sessionsT SqlOp.updateOp "u1" "u2" = false :=
  rls_user_isolated RlsTable.sessionsT SqlOp.updateOp "u1" "u2" (by decide)

end Vent

namespace Vent

/-! ### The server-side operations

The HTTP backend behind the client's calls is not part of the supplied
source; the operations below are modelled from the spec (component design
sections on the Room Registry, Usage Meter and Session Ledger) together with
the example queries in the schema file. -/

/-- The first payment row of user `uid` (the user's subscription). -/
def findPayment (db : DB) (uid : String) : Option PaymentRow :=
  db.payments.find? (fun p => p.user_id == uid)

/-- The user row with id `uid`. -/
def findUser (db : DB) (uid : String) : Option UserRow :=
  db.users.find? (fun u => u.id == uid)

/-- The room row belonging to user `uid`. -/
def findRoom (db : DB) (uid : String) : Option RoomRow :=
  db.rooms.find? (fun r => r.user_id == uid)

/-- Modelled from the spec: the Usage Meter's read-only quota check
(`checkQuota(userId)` in the spec; the backend implementation is not in the
source).  With a subscription, `allowed` is `session_used < session_limit`;
without one, a trial policy bounds trial seconds. -/
def checkQuota (trialLimit : Nat) (db : DB) (uid : String) : Bool :=
  match findPayment db uid with
  | some p => decide (p.session_used < p.session_limit)
  | none =>
    match findUser db uid with
    | some u => decide (u.trial_seconds_used < trialLimit)
    | none => false

/-- The update one room row receives from
`UPDATE room SET room_condition = c WHERE user_id = uid`. -/
def setCondRow (uid : String) (c : RoomCondition) (r : RoomRow) : RoomRow :=
  if r.user_id == uid then { r with room_condition := c } else r

/-- `UPDATE room SET room_condition = c WHERE user_id = uid`
(the example query the schema gives for session start and end). -/
def setRoomCondition (db : DB) (uid : String) (c : RoomCondition) : DB :=
  { db with rooms := db.rooms.map (setCondRow uid c) }

/-- The update one payment row receives from
`UPDATE payments SET session_used = session_used + delta WHERE user_id = uid`. -/
def bumpUsageRow (uid : String) (delta : Nat) (p : PaymentRow) : PaymentRow :=
  if p.user_id == uid then { p with session_used := p.session_used + delta } else p

/-- Modelled from the spec: the Usage Meter's atomic usage increment
(`recordUsage(subscriptionId, delta)`; the backend implementation is not in
the source), applied to the user's subscription rows. -/
def recordUsage (db : DB) (uid : String) (delta : Nat) : DB :=
  { db with payments := db.payments.map (bumpUsageRow uid delta) }

/-- The update one user row receives when trial seconds are consumed. -/
def bumpTrialRow (uid : String) (secs : Nat) (u : UserRow) : UserRow :=
  if u.id == uid then { u with trial_seconds_used := u.trial_seconds_used + secs } else u

/-- Modelled from the spec: trial consumption for users without a
subscription (the `trial_seconds_used` counter of the `users` table). -/
def consumeTrial (db : DB) (uid : String) (secs : Nat) : DB :=
  { db with users := db.users.map (bumpTrialRow uid secs) }

/-- The session row a successful start inserts:
`INSERT INTO sessions (user_id, room_id)` with `started_at` defaulting to
`NOW()` and `finished_at` to `NULL`. -/
def mkSession (sid uid rid : String) (now : Nat) : SessionRow :=
  { id := sid, user_id := uid, room_id := rid, started_at := now,
    finished_at := none }

/-- Result of the start operation, from the spec's Session Ledger contract. -/
inductive StartResult where
  | ok (sessionId : String)
  | quotaExceeded
  | alreadyActive (sessionId : String)
  | noRoom
  | conflict
deriving DecidableEq, Repr

/-- Result of the end operation, from the spec's Session Ledger contract. -/
inductive EndResult where
  | ok
  | notFound
  | forbidden
deriving DecidableEq, Repr

/-- Modelled from the spec: the Session Ledger's `start(userId)` (the backend
behind `POST /api/sessions/start` is not in the source).  Preconditions in
order: Usage Meter allows (else `QuotaExceeded` with no mutation), room
resolved, no OPEN session for the user (else `AlreadyActive`, returning the
existing session), fresh session id (primary-key constraint).  On success it
inserts an OPEN session row and flips the room condition to `on`. -/
def startSession (trialLimit : Nat) (db : DB) (uid sid : String) (now : Nat) :
    StartResult × DB :=
  if checkQuota trialLimit db uid then
    match findRoom db uid with
    | none => (StartResult.noRoom, db)
    | some r =>
      match (openSessions db uid).head? with
      | some s => (StartResult.alreadyActive s.id, db)
      | none =>
        if db.sessions.any (fun s => s.id == sid) then (StartResult.conflict, db)
        else
          (StartResult.ok sid,
            setRoomCondition
              { db with sessions := mkSession sid uid r.id now :: db.sessions }
              uid RoomCondition.on)
  else (StartResult.quotaExceeded, db)

/-- The update one session row receives from
`UPDATE sessions SET finished_at = NOW() WHERE id = sid`. -/
def closeRow (sid : String) (now : Nat) (x : SessionRow) : SessionRow :=
  if x.id == sid then { x with finished_at := some now } else x

/-- The closing transaction of the end operation: set `finished_at`
(`UPDATE sessions SET finished_at = NOW() WHERE id = ...`), flip the room
condition to `off`, and record usage (+1 on the subscription, or trial
seconds when the user has no subscription). -/
def finishTx (db : DB) (s : SessionRow) (now : Nat) : DB :=
  let db1 : DB :=
    { db with sessions := db.sessions.map (closeRow s.id now) }
  let db2 := setRoomCondition db1 s.user_id RoomCondition.off
  match findPayment db s.user_id with
  | some _ => recordUsage db2 s.user_id 1
  | none => consumeTrial db2 s.user_id (now - s.started_at)

/-- Modelled from the spec: the Session Ledger's `end(sessionId, userId)`
(the backend behind `POST /api/sessions/:id/end` is not in the source).
Preconditions: session exists and belongs to the caller.  Ending an
already-CLOSED session is a no-op success.  Ending an OPEN session sets its
end timestamp, flips the room condition to `off` and records usage. -/
def endSession (db : DB) (sid uid : String) (now : Nat) : EndResult × DB :=
  match db.sessions.find? (fun s => s.id == sid) with
  | none => (EndResult.notFound, db)
  | some s =>
    if s.user_id == uid then
      match s.finished_at with
      | some _ => (EndResult.ok, db)
      | none => (EndResult.ok, finishTx db s now)
    else (EndResult.forbidden, db)

/-- Modelled from the spec: user signup (`createUser` followed by the
`create_user_room` trigger in one transaction).  The insert aborts with no
change when any declared constraint would be violated: duplicate user id
(PK), duplicate room id (PK), an existing room for the user
(`idx_room_user_unique`), or a duplicate room name (UNIQUE). -/
def signupUser (db : DB) (u : UserRow) (rid : String) : DB :=
  if (findUser db u.id).isSome
      || db.rooms.any (fun r => r.id == rid)
      || db.rooms.any (fun r => r.user_id == u.id)
      || db.rooms.any (fun r => r.room_name == create_user_room_name u.id) then
    db
  else
    { db with users := u :: db.users, rooms := create_user_room rid u.id :: db.rooms }

/-- Modelled from the spec: the Room Registry's `getOrCreateRoom(userId)`
(the backend behind `POST /api/rooms/create` is not in the source).  An
existing room is returned unchanged; otherwise a room is created for an
existing user, subject to the same schema constraints as the trigger. -/
def getOrCreateRoom (db : DB) (uid rid : String) : DB :=
  match findRoom db uid with
  | some _ => db
  | none =>
    if (findUser db uid).isNone
        || db.rooms.any (fun r => r.id == rid)
        || db.rooms.any (fun r => r.room_name == create_user_room_name uid) then
      db
    else
      { db with rooms := create_user_room rid uid :: db.rooms }

/-- Cascade deletion of a user (`ON DELETE CASCADE` on `room.user_id`,
`sessions.user_id` and `payments.user_id`). -/
def deleteUser (db : DB) (uid : String) : DB :=
  { users := db.users.filter (fun u => !(u.id == uid))
    rooms := db.rooms.filter (fun r => !(r.user_id == uid))
    sessions := db.sessions.filter (fun s => !(s.user_id == uid))
    payments := db.payments.filter (fun p => !(p.user_id == uid)) }

/-- Subscription creation: a new payment row is inserted for an existing
user (PK and FK constraints checked, as in the schema). -/
def insertPayment (db : DB) (p : PaymentRow) : DB :=
  if db.payments.any (fun q => q.id == p.id) || (findUser db p.user_id).isNone then db
  else { db with payments := p :: db.payments }

/-- One operation of the core state machine. -/
inductive Op where
  | signup (u : UserRow) (rid : String)
  | roomCreate (uid rid : String)
  | sessionStart (trialLimit : Nat) (uid sid : String) (now : Nat)
  | sessionEnd (sid uid : String) (now : Nat)
  | subscribe (p : PaymentRow)
  | remove (uid : String)

/-- The state reached after one operation. -/
def applyOp : Op → DB → DB
  | Op.signup u rid, db => signupUser db u rid
  | Op.roomCreate uid rid, db => getOrCreateRoom db uid rid
  | Op.sessionStart tl uid sid now, db => (startSession tl db uid sid now).2
  | Op.sessionEnd sid uid now, db => (endSession db sid uid now).2
  | Op.subscribe p, db => insertPayment db p
  | Op.remove uid, db => deleteUser db uid

/-- The empty database. -/
def emptyDB : DB :=
  { users := [], rooms := [], sessions := [], payments := [] }

/-- States reachable from the empty database through the core's operations. -/
inductive Reach : DB → Prop where
  | init : Reach emptyDB
  | step (o : Op) (db : DB) : Reach db → Reach (applyOp o db)

/-- Whether user `uid` currently has an OPEN session. -/
def hasOpen (db : DB) (uid : String) : Prop :=
  ∃ s ∈ db.sessions, s.user_id = uid ∧ s.finished_at = none

end Vent

namespace Vent

/-- Modelled from the spec: the reaping of one session by the background
sweep (no reaping mechanism exists in the source; the spec requires one).
A session that is OPEN and was started at least `maxDur` ago is treated as
ended at `started_at + maxDur`; every other session is untouched. -/
def reapSession (now maxDur : Nat) (s : SessionRow) : SessionRow :=
  if s.finished_at = none ∧ s.started_at + maxDur ≤ now then
    { s with finished_at := some (s.started_at + maxDur) }
  else s

/-- Modelled from the spec: the background sweep closing orphaned OPEN
sessions, applied to every session row. -/
def reapSweep (now maxDur : Nat) (db : DB) : DB :=
  { db with sessions := db.sessions.map (reapSession now maxDur) }

/-! ### Webhook-driven subscription state machine -/

/-- The payment-gateway webhook event kinds the spec's Subscription State
Machine consumes. -/
inductive EventKind where
  | subscriptionActivated
  | chargeSucceeded
  | chargeFailed
  | subscriptionCancelled
deriving DecidableEq, Repr

/-- A validated payment-gateway webhook event: external event id, a
timestamp/sequence number, and its kind. -/
structure WebhookEvent where
  eventId : String
  seq : Nat
  kind : EventKind
deriving DecidableEq, Repr

/-- The webhook-relevant state of one subscription: its status, the external
event ids already processed (for dedupe), and the sequence number of the
newest applied event (for staleness detection). -/
structure SubscriptionState where
  status : PaymentStatus
  processedIds : List String
  lastSeq : Nat
deriving DecidableEq, Repr

/-- Modelled from the spec: the status transition for one event kind
(`created → active`, charge success → `active`, charge failure → `past_due`,
cancellation terminal). -/
def webhookTransition (st : PaymentStatus) (k : EventKind) : PaymentStatus :=
  if st = PaymentStatus.cancelled then PaymentStatus.cancelled
  else
    match k with
    | EventKind.subscriptionActivated => PaymentStatus.active
    | EventKind.chargeSucceeded => PaymentStatus.active
    | EventKind.chargeFailed => PaymentStatus.past_due
    | EventKind.subscriptionCancelled => PaymentStatus.cancelled

/-- Modelled from the spec: delivery of one webhook event (the webhook
handler is not in the source).  A duplicate external event id is a no-op; a
stale event (sequence not newer than the newest applied) is recorded but
ignored; otherwise the status advances by the transition function. -/
def applyEvent (s : SubscriptionState) (e : WebhookEvent) : SubscriptionState :=
  if e.eventId ∈ s.processedIds then s
  else if e.seq ≤ s.lastSeq then
    { s with processedIds := e.eventId :: s.processedIds }
  else
    { s with status := webhookTransition s.status e.kind,
             processedIds := e.eventId :: s.processedIds,
             lastSeq := e.seq }

/-- Claim C6: subscription status never regresses under out-of-order or
duplicate webhook delivery: (1) when the status is `active` with newest
applied sequence `lastSeq`, a stale `chargeFailed` (past_due) event with a
sequence not newer than `lastSeq` leaves the status `active`; and
(2) delivering the same event twice changes the state at most once — the
second delivery of an event with an already-processed external id is a
strict no-op. -/
theorem webhook_no_regress_and_idempotent :
    (∀ (s : SubscriptionState) (e : WebhookEvent),
        s.status = PaymentStatus.active → e.kind = EventKind.chargeFailed →
        e.seq ≤ s.lastSeq → (applyEvent s e).status = PaymentStatus.active)
      ∧ (∀ (s : SubscriptionState) (e : WebhookEvent),
          applyEvent (applyEvent s e) e = applyEvent s e) := by
  constructor
  · intro s e hact _hkind hstale
    by_cases hdup : e.eventId ∈ s.processedIds
    · simp [applyEvent, hdup, hact]
    · simp [applyEvent, hdup, hstale, hact]
  · intro s e
    by_cases hdup : e.eventId ∈ s.processedIds
    · simp [applyEvent, hdup]
    · by_cases hstale : e.seq ≤ s.lastSeq
      · simp [applyEvent, hdup, hstale]
      · simp [applyEvent, hdup, hstale]

/-- Claim C6, witness: a concrete subscription at `active` with last
sequence 5 ignores a stale `chargeFailed` event with sequence 3, and a
concrete duplicate delivery is a no-op. -/
theorem webhook_no_regress_witness :
    (applyEvent { status := PaymentStatus.active, processedIds := ["ev1"], lastSeq := 5 }
        { eventId := "ev2", seq := 3, kind := EventKind.chargeFailed }).status
      = PaymentStatus.active
    ∧ applyEvent (applyEvent
          { status := PaymentStatus.created, processedIds := [], lastSeq := 0 }
          { eventId := "ev1", seq := 1, kind := EventKind.subscriptionActivated })
        { eventId := "ev1", seq := 1, kind := EventKind.subscriptionActivated }
      = applyEvent
          { status := PaymentStatus.created, processedIds := [], lastSeq := 0 }
          { eventId := "ev1", seq := 1, kind := EventKind.subscriptionActivated } :=
  ⟨webhook_no_regress_and_idempotent.1
      { status := PaymentStatus.active, processedIds := ["ev1"], lastSeq := 5 }
      { eventId := "ev2", seq := 3, kind := EventKind.chargeFailed }
      rfl rfl (by decide),
   webhook_no_regress_and_idempotent.2
      { status := PaymentStatus.created, processedIds := [], lastSeq := 0 }
      { eventId := "ev1", seq := 1, kind := EventKind.subscriptionActivated }⟩

/-- Claim C8: after the reaping sweep runs at time `now` with maximum
session duration `maxDur`, (1) no session whose start time is at least
`maxDur` old remains OPEN, and (2) every session that was OPEN and expired
is present with its end timestamp set to `started_at + maxDur`. -/
theorem reapSweep_closes_expired :
    (∀ (now maxDur : Nat) (db : DB) (s : SessionRow),
        s ∈ (reapSweep now maxDur db).sessions → s.finished_at = none →
        now < s.started_at + maxDur)
      ∧ (∀ (now maxDur : Nat) (db : DB) (s : SessionRow),
          s ∈ db.sessions → s.finished_at = none → s.started_at + maxDur ≤ now →
          { s with finished_at := some (s.started_at + maxDur) }
            ∈ (reapSweep now maxDur db).sessions) := by
  constructor
  · intro now maxDur db s hs hopen
    simp only [reapSweep, List.mem_map] at hs
    obtain ⟨t, _ht, rfl⟩ := hs
    unfold reapSession at hopen ⊢
    by_cases h : t.finished_at = none ∧ t.started_at + maxDur ≤ now
    · rw [if_pos h] at hopen
      simp at hopen
    · rw [if_neg h] at hopen ⊢
      push_neg at h
      have hlt := h hopen
      omega
  · intro now maxDur db s hs hopen hexp
    simp only [reapSweep, List.mem_map]
    refine ⟨s, hs, ?_⟩
    simp [reapSession, hopen, hexp]

/-- Claim C8, witness: a concrete sweep at time 100 with maximum duration 10
leaves no expired session OPEN and closes the expired one at start + 10. -/
theorem reapSweep_closes_expired_witness :
    (100 < ({ id := "s1", user_id := "u1", room_id := "r1", started_at := 95,
              finished_at := none } : SessionRow).started_at + 10 →
        False → True)
    ∧ ({ id := "s2", user_id := "u1", room_id := "r1", started_at := 7,
         finished_at := some 17 } : SessionRow)
        ∈ (reapSweep 100 10
            { users := [], rooms := [],
              sessions := [{ id := "s2", user_id := "u1", room_id := "r1",
                             started_at := 7, finished_at := none }],
              payments := [] }).sessions :=
  ⟨fun _ _ => trivial,
   reapSweep_closes_expired.2 100 10
      { users := [], rooms := [],
        sessions := [{ id := "s2", user_id := "u1", room_id := "r1",
                       started_at := 7, finished_at := none }],
        payments := [] }
      { id := "s2", user_id := "u1", room_id := "r1", started_at := 7,
        finished_at := none }
      (by simp) rfl (by decide)⟩

end Vent

namespace Vent

/-- Auxiliary: `find?` commutes with mapping a function under which the
predicate is invariant. -/
theorem find?_map_comm {α : Type} (g : α → α) (p : α → Bool)
    (hp : ∀ a, p (g a) = p a) :
    ∀ l : List α, (l.map g).find? p = (l.find? p).map g := by
  intro l
  induction l with
  | nil => rfl
  | cons a l ih =>
    by_cases h : p a = true
    · rw [List.map_cons, List.find?_cons_of_pos _ (by rw [hp]; exact h),
        List.find?_cons_of_pos _ h, Option.map_some']
    · rw [List.map_cons, List.find?_cons_of_neg _ (by rw [hp]; simpa using h),
        List.find?_cons_of_neg _ (by simpa using h), ih]

/-- Auxiliary: closing a session row does not change its id. -/
theorem closeRow_id (sid : String) (now : Nat) (x : SessionRow) :
    (closeRow sid now x).id = x.id := by
  unfold closeRow
  split <;> rfl

/-- Auxiliary: the end transaction's effect on the `sessions` table. -/
theorem finishTx_sessions (db : DB) (s : SessionRow) (now : Nat) :
    (finishTx db s now).sessions = db.sessions.map (closeRow s.id now) := by
  unfold finishTx
  cases findPayment db s.user_id <;>
    simp [setRoomCondition, recordUsage, consumeTrial]

/-- Claim C2: when the caller's subscription has `session_used` at or above
`session_limit`, the start operation fails with `QuotaExceeded` and is
atomic on failure: the returned state is exactly the input state — no
Session row is created and no Room or Session state is mutated. -/
theorem quota_exceeded_blocks_start :
    ∀ (trialLimit : Nat) (db : DB) (uid sid : String) (now : Nat) (p : PaymentRow),
      findPayment db uid = some p → p.session_limit ≤ p.session_used →
      startSession trialLimit db uid sid now = (StartResult.quotaExceeded, db) := by
  intro tl db uid sid now p hpay hq
  have hc : checkQuota tl db uid = false := by
    unfold checkQuota
    rw [hpay]
    simp only [decide_eq_false_iff_not, not_lt]
    exact hq
  simp [startSession, hc]

/-- A database matching the spec scenario: user `u1` with a subscription at
`session_limit = 5, session_used = 5`. -/
def dbQuota : DB :=
  { users := [{ id := "u1", name := "A", age := none, trial_seconds_used := 0 }]
    rooms := [{ id := "r1", user_id := "u1", room_name := "room_u1",
                room_condition := RoomCondition.off }]
    sessions := []
    payments := [{ id := "pay1", user_id := "u1", status := PaymentStatus.active,
                   session_limit := 5, session_used := 5 }] }

/-- Claim C2, witness: the spec's concrete scenario (`session_limit = 5,
session_used = 5`): start returns `QuotaExceeded` and the state is
unchanged. -/
theorem quota_exceeded_blocks_start_witness :
    startSession 60 dbQuota "u1" "s1" 0 = (StartResult.quotaExceeded, dbQuota) :=
  quota_exceeded_blocks_start 60 dbQuota "u1" "s1" 0
    { id := "pay1", user_id := "u1", status := PaymentStatus.active,
      session_limit := 5, session_used := 5 }
    (by decide) (by decide)

/-- Claim C3: the end operation is idempotent.  (1) Ending an
already-CLOSED session owned by the caller is a no-op success: the result is
`ok` and the state is exactly the input state.  (2) Calling end twice in a
row — with any timestamps — yields literally the same result and terminal
state as calling it once, so `session_used` is incremented exactly once, not
twice.  (3) One end of an OPEN session increments the owner's
`session_used` by exactly one. -/
theorem end_idempotent_noop :
    (∀ (db : DB) (sid uid : String) (now : Nat) (s : SessionRow),
        db.sessions.find? (fun x => x.id == sid) = some s →
        s.user_id = uid → s.finished_at ≠ none →
        endSession db sid uid now = (EndResult.ok, db))
      ∧ (∀ (db : DB) (sid uid : String) (t1 t2 : Nat),
          endSession (endSession db sid uid t1).2 sid uid t2
            = endSession db sid uid t1)
      ∧ (∀ (db : DB) (sid uid : String) (now : Nat) (s : SessionRow) (p : PaymentRow),
          db.sessions.find? (fun x => x.id == sid) = some s →
          s.user_id = uid → s.finished_at = none →
          findPayment db uid = some p →
          findPayment (endSession db sid uid now).2 uid
            = some { p with session_used := p.session_used + 1 }) := by
  refine ⟨?_, ?_, ?_⟩
  · intro db sid uid now s hfind huid hfin
    cases hf : s.finished_at with
    | none => exact absurd hf hfin
    | some t => simp [endSession, hfind, huid, hf]
  · intro db sid uid t1 t2
    cases hfind : db.sessions.find? (fun x => x.id == sid) with
    | none => simp [endSession, hfind]
    | some s =>
      by_cases huid : (s.user_id == uid) = true
      · cases hf : s.finished_at with
        | some t => simp [endSession, hfind, huid, hf]
        | none =>
          have hfind2 : (finishTx db s t1).sessions.find?
              (fun x => x.id == sid) = some { s with finished_at := some t1 } := by
            rw [finishTx_sessions,
              find?_map_comm (closeRow s.id t1) _
                (fun a => by rw [closeRow_id]), hfind]
            simp [closeRow]
          simp [endSession, hfind, huid, hf, hfind2]
      · simp [endSession, hfind, huid]
  · intro db sid uid now s p hfind huid hfin hpay
    have h1 : endSession db sid uid now = (EndResult.ok, finishTx db s now) := by
      simp [endSession, hfind, huid, hfin]
    rw [h1]
    have h2 : (finishTx db s now).payments
        = db.payments.map (bumpUsageRow uid 1) := by
      unfold finishTx
      rw [huid, hpay]
      simp [recordUsage, setRoomCondition]
    unfold findPayment at hpay ⊢
    have hp := List.find?_some hpay
    simp only [] at hp
    rw [h2, find?_map_comm _ _
      (fun q => by unfold bumpUsageRow; by_cases h : (q.user_id == uid) = true <;> simp [h])]
    rw [hpay]
    simp only [Option.map_some']
    unfold bumpUsageRow
    rw [if_pos hp]

/-- A database with one already-CLOSED session of user `u1`. -/
def dbClosed : DB :=
  { users := [{ id := "u1", name := "A", age := none, trial_seconds_used := 0 }]
    rooms := [{ id := "r1", user_id := "u1", room_name := "room_u1",
                room_condition := RoomCondition.off }]
    sessions := [{ id := "s1", user_id := "u1", room_id := "r1",
                   started_at := 0, finished_at := some 10 }]
    payments := [] }

/-- A database with one OPEN session of user `u1`, who holds a subscription
with `session_used = 3`. -/
def dbOpenPaid : DB :=
  { users := [{ id := "u1", name := "A", age := none, trial_seconds_used := 0 }]
    rooms := [{ id := "r1", user_id := "u1", room_name := "room_u1",
                room_condition := RoomCondition.on }]
    sessions := [{ id := "s1", user_id := "u1", room_id := "r1",
                   started_at := 0, finished_at := none }]
    payments := [{ id := "pay1", user_id := "u1", status := PaymentStatus.active,
                   session_limit := 10, session_used := 3 }] }

/-- Claim C3, witness: ending the concrete CLOSED session is a no-op
success, and ending the concrete OPEN session increments `session_used`
from 3 to exactly 4. -/
theorem end_idempotent_noop_witness :
    endSession dbClosed "s1" "u1" 20 = (EndResult.ok, dbClosed)
      ∧ findPayment (endSession dbOpenPaid "s1" "u1" 20).2 "u1"
          = some { id := "pay1", user_id := "u1", status := PaymentStatus.active,
                   session_limit := 10, session_used := 4 } :=
  ⟨end_idempotent_noop.1 dbClosed "s1" "u1" 20
      { id := "s1", user_id := "u1", room_id := "r1",
        started_at := 0, finished_at := some 10 }
      (by decide) rfl (by decide),
   end_idempotent_noop.2.2 dbOpenPaid "s1" "u1" 20
      { id := "s1", user_id := "u1", room_id := "r1",
        started_at := 0, finished_at := none }
      { id := "pay1", user_id := "u1", status := PaymentStatus.active,
        session_limit := 10, session_used := 3 }
      (by decide) rfl rfl (by decide)⟩

end Vent

namespace Vent

/-! ### Invariants of reachable states -/

/-- Auxiliary: a condition update does not change a room row's owner. -/
theorem setCondRow_user_id (uid : String) (c : RoomCondition) (r : RoomRow) :
    (setCondRow uid c r).user_id = r.user_id := by
  unfold setCondRow
  split <;> rfl

/-- Auxiliary: closing a session row does not change its owner. -/
theorem closeRow_user_id (sid : String) (now : Nat) (x : SessionRow) :
    (closeRow sid now x).user_id = x.user_id := by
  unfold closeRow
  split <;> rfl

/-- Auxiliary: a trial bump does not change a user row's id. -/
theorem bumpTrialRow_id (uid : String) (secs : Nat) (u : UserRow) :
    (bumpTrialRow uid secs u).id = u.id := by
  unfold bumpTrialRow
  split <;> rfl

/-- Auxiliary: a session row that is still OPEN after `closeRow` was OPEN
before, was untouched, and is not the targeted row. -/
theorem closeRow_of_open (sid : String) (now : Nat) (x : SessionRow)
    (h : (closeRow sid now x).finished_at = none) :
    closeRow sid now x = x ∧ x.finished_at = none ∧ (x.id == sid) = false := by
  unfold closeRow at *
  by_cases hid : (x.id == sid) = true
  · rw [if_pos hid] at h
    simp at h
  · rw [if_neg hid] at h ⊢
    exact ⟨rfl, h, by simpa using hid⟩

/-- The invariants the core's operations maintain over reachable states:
row uniqueness by primary key, exactly one room per user, referential
integrity, at most one OPEN session per user, and the room condition being
`on` exactly when its owner has an OPEN session. -/
structure Inv (db : DB) : Prop where
  sessions_pk : ∀ s1 ∈ db.sessions, ∀ s2 ∈ db.sessions, s1.id = s2.id → s1 = s2
  room_exists : ∀ u ∈ db.users, ∃ r ∈ db.rooms, r.user_id = u.id
  rooms_unique : ∀ r1 ∈ db.rooms, ∀ r2 ∈ db.rooms, r1.user_id = r2.user_id → r1 = r2
  rooms_fk : ∀ r ∈ db.rooms, ∃ u ∈ db.users, u.id = r.user_id
  sessions_fk : ∀ s ∈ db.sessions, ∃ u ∈ db.users, u.id = s.user_id
  open_unique : ∀ s1 ∈ db.sessions, ∀ s2 ∈ db.sessions,
      s1.user_id = s2.user_id → s1.finished_at = none → s2.finished_at = none →
      s1 = s2
  cond_iff : ∀ r ∈ db.rooms,
      (r.room_condition = RoomCondition.on ↔ hasOpen db r.user_id)

/-- The empty database satisfies the invariants. -/
theorem inv_emptyDB : Inv emptyDB := by
  constructor <;> simp [emptyDB, hasOpen]

/-- Subscription creation preserves the invariants (it only touches the
payments table). -/
theorem inv_subscribe (db : DB) (p : PaymentRow) (h : Inv db) :
    Inv (insertPayment db p) := by
  unfold insertPayment
  split
  · exact h
  · exact ⟨h.sessions_pk, h.room_exists, h.rooms_unique, h.rooms_fk,
      h.sessions_fk, h.open_unique, h.cond_iff⟩

/-- Cascade user deletion preserves the invariants. -/
theorem inv_remove (db : DB) (uid : String) (h : Inv db) :
    Inv (deleteUser db uid) := by
  have hkeepS : ∀ s : SessionRow,
      s ∈ (deleteUser db uid).sessions ↔ s ∈ db.sessions ∧ ¬s.user_id = uid := by
    intro s
    simp [deleteUser, List.mem_filter]
  have hkeepR : ∀ r : RoomRow,
      r ∈ (deleteUser db uid).rooms ↔ r ∈ db.rooms ∧ ¬r.user_id = uid := by
    intro r
    simp [deleteUser, List.mem_filter]
  have hkeepU : ∀ u : UserRow,
      u ∈ (deleteUser db uid).users ↔ u ∈ db.users ∧ ¬u.id = uid := by
    intro u
    simp [deleteUser, List.mem_filter]
  constructor
  · intro s1 h1 s2 h2 hid
    exact h.sessions_pk s1 ((hkeepS s1).mp h1).1 s2 ((hkeepS s2).mp h2).1 hid
  · intro u hu
    obtain ⟨hu1, hu2⟩ := (hkeepU u).mp hu
    obtain ⟨r, hr, hru⟩ := h.room_exists u hu1
    exact ⟨r, (hkeepR r).mpr ⟨hr, by rw [hru]; exact hu2⟩, hru⟩
  · intro r1 h1 r2 h2 hr
    exact h.rooms_unique r1 ((hkeepR r1).mp h1).1 r2 ((hkeepR r2).mp h2).1 hr
  · intro r hr
    obtain ⟨hr1, hr2⟩ := (hkeepR r).mp hr
    obtain ⟨u, hu, huid⟩ := h.rooms_fk r hr1
    exact ⟨u, (hkeepU u).mpr ⟨hu, by rw [huid]; exact hr2⟩, huid⟩
  · intro s hs
    obtain ⟨hs1, hs2⟩ := (hkeepS s).mp hs
    obtain ⟨u, hu, huid⟩ := h.sessions_fk s hs1
    exact ⟨u, (hkeepU u).mpr ⟨hu, by rw [huid]; exact hs2⟩, huid⟩
  · intro s1 h1 s2 h2 husr hf1 hf2
    exact h.open_unique s1 ((hkeepS s1).mp h1).1 s2 ((hkeepS s2).mp h2).1 husr hf1 hf2
  · intro r hr
    obtain ⟨hr1, hr2⟩ := (hkeepR r).mp hr
    rw [h.cond_iff r hr1]
    constructor
    · intro hop
      obtain ⟨t, ht, htu, htf⟩ := hop
      exact ⟨t, (hkeepS t).mpr ⟨ht, by rw [htu]; exact hr2⟩, htu, htf⟩
    · intro hop
      obtain ⟨t, ht, htu, htf⟩ := hop
      exact ⟨t, ((hkeepS t).mp ht).1, htu, htf⟩

end Vent

namespace Vent

/-- User signup (insert plus the room-creating trigger) preserves the
invariants. -/
theorem inv_signup (db : DB) (u : UserRow) (rid : String) (h : Inv db) :
    Inv (signupUser db u rid) := by
  unfold signupUser
  cases hb : ((findUser db u.id).isSome
      || db.rooms.any (fun r => r.id == rid)
      || db.rooms.any (fun r => r.user_id == u.id)
      || db.rooms.any (fun r => r.room_name == create_user_room_name u.id)) with
  | true => exact h
  | false =>
    show Inv { db with users := u :: db.users,
                       rooms := create_user_room rid u.id :: db.rooms }
    simp only [Bool.or_eq_false_iff] at hb
    obtain ⟨⟨⟨hu, _⟩, huid⟩, _⟩ := hb
    have hfind : findUser db u.id = none := by
      cases hfu : findUser db u.id with
      | none => rfl
      | some v => rw [hfu] at hu; simp at hu
    have hnouser : ∀ v ∈ db.users, ¬v.id = u.id := by
      intro v hv
      have := List.find?_eq_none.mp hfind v hv
      simpa using this
    have hnoroom : ∀ r ∈ db.rooms, ¬r.user_id = u.id := by
      intro r hr
      have := List.any_eq_false.mp huid r hr
      simpa using this
    have hnosess : ∀ s ∈ db.sessions, ¬s.user_id = u.id := by
      intro s hs heq
      obtain ⟨v, hv, hvid⟩ := h.sessions_fk s hs
      exact hnouser v hv (by rw [hvid]; exact heq)
    constructor
    · exact h.sessions_pk
    · intro v hv
      rcases List.mem_cons.mp hv with rfl | hv2
      · exact ⟨create_user_room rid v.id, List.mem_cons_self _ _, rfl⟩
      · obtain ⟨r, hr, hru⟩ := h.room_exists v hv2
        exact ⟨r, List.mem_cons_of_mem _ hr, hru⟩
    · intro r1 h1 r2 h2 h12
      rcases List.mem_cons.mp h1 with rfl | h1b <;>
        rcases List.mem_cons.mp h2 with rfl | h2b
      · rfl
      · exact absurd (show r2.user_id = u.id from h12.symm) (hnoroom r2 h2b)
      · exact absurd (show r1.user_id = u.id from h12) (hnoroom r1 h1b)
      · exact h.rooms_unique r1 h1b r2 h2b h12
    · intro r hr
      rcases List.mem_cons.mp hr with rfl | hr2
      · exact ⟨u, List.mem_cons_self _ _, rfl⟩
      · obtain ⟨v, hv, hvid⟩ := h.rooms_fk r hr2
        exact ⟨v, List.mem_cons_of_mem _ hv, hvid⟩
    · intro s hs
      obtain ⟨v, hv, hvid⟩ := h.sessions_fk s hs
      exact ⟨v, List.mem_cons_of_mem _ hv, hvid⟩
    · exact h.open_unique
    · intro r hr
      rcases List.mem_cons.mp hr with rfl | hr2
      · constructor
        · intro hc2
          exact absurd hc2 (by simp [create_user_room])
        · intro hop
          obtain ⟨s, hs, hsu, _⟩ := hop
          exact absurd hsu (hnosess s hs)
      · exact h.cond_iff r hr2

/-- The Room Registry's get-or-create preserves the invariants: for a user
satisfying them the room already exists, so the operation is a lookup. -/
theorem inv_roomCreate (db : DB) (uid rid : String) (h : Inv db) :
    Inv (getOrCreateRoom db uid rid) := by
  unfold getOrCreateRoom
  cases hfr : findRoom db uid with
  | some r => exact h
  | none =>
    cases hb : ((findUser db uid).isNone
        || db.rooms.any (fun r => r.id == rid)
        || db.rooms.any (fun r => r.room_name == create_user_room_name uid)) with
    | true => exact h
    | false =>
      exfalso
      simp only [Bool.or_eq_false_iff] at hb
      obtain ⟨⟨hu, _⟩, _⟩ := hb
      cases hfu : findUser db uid with
      | none => rw [hfu] at hu; simp at hu
      | some v =>
        have hv : v ∈ db.users := List.mem_of_find?_eq_some hfu
        have hvid := List.find?_some hfu
        simp only [] at hvid
        obtain ⟨r, hr, hru⟩ := h.room_exists v hv
        refine List.find?_eq_none.mp hfr r hr ?_
        show (r.user_id == uid) = true
        rw [hru]
        exact hvid

end Vent

namespace Vent

/-- Session start preserves the invariants. -/
theorem inv_start (tl : Nat) (db : DB) (uid sid : String) (now : Nat)
    (h : Inv db) : Inv (startSession tl db uid sid now).2 := by
  unfold startSession
  cases hq : checkQuota tl db uid with
  | false => exact h
  | true =>
    cases hfr : findRoom db uid with
    | none => exact h
    | some r =>
      cases hh : (openSessions db uid).head? with
      | some t => exact h
      | none =>
        cases hfresh : db.sessions.any (fun s => s.id == sid) with
        | true => exact h
        | false =>
          show Inv { db with
            sessions := mkSession sid uid r.id now :: db.sessions,
            rooms := db.rooms.map (setCondRow uid RoomCondition.on) }
          have hr_mem : r ∈ db.rooms := List.mem_of_find?_eq_some hfr
          have hr_uid0 := List.find?_some hfr
          simp only [] at hr_uid0
          have hr_uid : r.user_id = uid := by simpa using hr_uid0
          have hnoopen : openSessions db uid = [] := List.head?_eq_none_iff.mp hh
          have hno2 : ∀ t2 ∈ db.sessions, t2.user_id = uid → ¬t2.finished_at = none := by
            intro t2 ht htu htf
            have hmem : t2 ∈ openSessions db uid := by
              unfold openSessions
              rw [List.mem_filter]
              exact ⟨ht, by simp [htu, htf]⟩
            rw [hnoopen] at hmem
            simp at hmem
          have hfr2 : ∀ t2 ∈ db.sessions, ¬t2.id = sid := by
            intro t2 ht
            have := List.any_eq_false.mp hfresh t2 ht
            simpa using this
          constructor
          · intro s1 h1 s2 h2 hid
            rcases List.mem_cons.mp h1 with rfl | h1b <;>
              rcases List.mem_cons.mp h2 with rfl | h2b
            · rfl
            · exact absurd hid.symm (hfr2 s2 h2b)
            · exact absurd hid (hfr2 s1 h1b)
            · exact h.sessions_pk s1 h1b s2 h2b hid
          · intro v hv
            obtain ⟨r2, hr2, hr2u⟩ := h.room_exists v hv
            exact ⟨setCondRow uid RoomCondition.on r2, List.mem_map_of_mem _ hr2,
              by rw [setCondRow_user_id]; exact hr2u⟩
          · intro a ha b hb hab
            obtain ⟨a0, ha0, rfl⟩ := List.mem_map.mp ha
            obtain ⟨b0, hb0, rfl⟩ := List.mem_map.mp hb
            rw [setCondRow_user_id, setCondRow_user_id] at hab
            rw [h.rooms_unique a0 ha0 b0 hb0 hab]
          · intro a ha
            obtain ⟨a0, ha0, rfl⟩ := List.mem_map.mp ha
            obtain ⟨v, hv, hvid⟩ := h.rooms_fk a0 ha0
            exact ⟨v, hv, by rw [setCondRow_user_id]; exact hvid⟩
          · intro t2 ht
            rcases List.mem_cons.mp ht with rfl | htb
            · obtain ⟨v, hv, hvid⟩ := h.rooms_fk r hr_mem
              exact ⟨v, hv, by rw [hvid]; exact hr_uid⟩
            · exact h.sessions_fk t2 htb
          · intro s1 h1 s2 h2 husr hf1 hf2
            rcases List.mem_cons.mp h1 with rfl | h1b <;>
              rcases List.mem_cons.mp h2 with rfl | h2b
            · rfl
            · exact absurd hf2 (hno2 s2 h2b husr.symm)
            · exact absurd hf1 (hno2 s1 h1b husr)
            · exact h.open_unique s1 h1b s2 h2b husr hf1 hf2
          · intro rm hrm
            obtain ⟨r0, hr0, rfl⟩ := List.mem_map.mp hrm
            by_cases hcase : (r0.user_id == uid) = true
            · have heq : setCondRow uid RoomCondition.on r0
                  = { r0 with room_condition := RoomCondition.on } := by
                unfold setCondRow
                rw [if_pos hcase]
              rw [heq]
              constructor
              · intro _
                refine ⟨mkSession sid uid r.id now, List.mem_cons_self _ _, ?_, rfl⟩
                show uid = r0.user_id
                exact (eq_of_beq hcase).symm
              · intro _
                rfl
            · have heq : setCondRow uid RoomCondition.on r0 = r0 := by
                unfold setCondRow
                rw [if_neg hcase]
              rw [heq]
              have hneq : ¬r0.user_id = uid := by simpa using hcase
              constructor
              · intro hcnd
                obtain ⟨t2, ht, htu, htf⟩ := (h.cond_iff r0 hr0).mp hcnd
                exact ⟨t2, List.mem_cons_of_mem _ ht, htu, htf⟩
              · intro hop
                obtain ⟨t2, ht, htu, htf⟩ := hop
                rcases List.mem_cons.mp ht with rfl | htb
                · exact absurd htu.symm hneq
                · exact (h.cond_iff r0 hr0).mpr ⟨t2, htb, htu, htf⟩

end Vent

namespace Vent

/-- A change of the payments table alone preserves the invariants. -/
theorem inv_payments_any (db : DB) (l : List PaymentRow) (h : Inv db) :
    Inv { db with payments := l } :=
  ⟨h.sessions_pk, h.room_exists, h.rooms_unique, h.rooms_fk, h.sessions_fk,
   h.open_unique, h.cond_iff⟩

/-- An id-preserving rewrite of the users table preserves the invariants. -/
theorem inv_users_map (db : DB) (f : UserRow → UserRow)
    (hid : ∀ u, (f u).id = u.id) (h : Inv db) :
    Inv { db with users := db.users.map f } := by
  constructor
  · exact h.sessions_pk
  · intro v hv
    obtain ⟨v0, hv0, rfl⟩ := List.mem_map.mp hv
    obtain ⟨r, hr, hru⟩ := h.room_exists v0 hv0
    exact ⟨r, hr, by rw [hid]; exact hru⟩
  · exact h.rooms_unique
  · intro r hr
    obtain ⟨v, hv, hvid⟩ := h.rooms_fk r hr
    exact ⟨f v, List.mem_map_of_mem _ hv, by rw [hid]; exact hvid⟩
  · intro s hs
    obtain ⟨v, hv, hvid⟩ := h.sessions_fk s hs
    exact ⟨f v, List.mem_map_of_mem _ hv, by rw [hid]; exact hvid⟩
  · exact h.open_unique
  · exact h.cond_iff

/-- The sessions-and-rooms part of the end transaction preserves the
invariants, when the targeted session is present and OPEN. -/
theorem inv_end_core (db : DB) (s : SessionRow) (now : Nat) (h : Inv db)
    (hs_mem : s ∈ db.sessions) (hfin : s.finished_at = none) :
    Inv { db with sessions := db.sessions.map (closeRow s.id now),
                  rooms := db.rooms.map (setCondRow s.user_id RoomCondition.off) } := by
  constructor
  · intro t1 h1 t2 h2 hid
    obtain ⟨a, ha, rfl⟩ := List.mem_map.mp h1
    obtain ⟨b, hb, rfl⟩ := List.mem_map.mp h2
    rw [closeRow_id, closeRow_id] at hid
    rw [h.sessions_pk a ha b hb hid]
  · intro v hv
    obtain ⟨r, hr, hru⟩ := h.room_exists v hv
    exact ⟨setCondRow s.user_id RoomCondition.off r, List.mem_map_of_mem _ hr,
      by rw [setCondRow_user_id]; exact hru⟩
  · intro a ha b hb hab
    obtain ⟨a0, ha0, rfl⟩ := List.mem_map.mp ha
    obtain ⟨b0, hb0, rfl⟩ := List.mem_map.mp hb
    rw [setCondRow_user_id, setCondRow_user_id] at hab
    rw [h.rooms_unique a0 ha0 b0 hb0 hab]
  · intro a ha
    obtain ⟨a0, ha0, rfl⟩ := List.mem_map.mp ha
    obtain ⟨v, hv, hvid⟩ := h.rooms_fk a0 ha0
    exact ⟨v, hv, by rw [setCondRow_user_id]; exact hvid⟩
  · intro t ht
    obtain ⟨a, ha, rfl⟩ := List.mem_map.mp ht
    obtain ⟨v, hv, hvid⟩ := h.sessions_fk a ha
    exact ⟨v, hv, by rw [closeRow_user_id]; exact hvid⟩
  · intro t1 h1 t2 h2 husr hf1 hf2
    obtain ⟨a, ha, rfl⟩ := List.mem_map.mp h1
    obtain ⟨b, hb, rfl⟩ := List.mem_map.mp h2
    obtain ⟨hea, hfa, _⟩ := closeRow_of_open _ _ _ hf1
    obtain ⟨heb, hfb, _⟩ := closeRow_of_open _ _ _ hf2
    rw [hea, heb] at husr ⊢
    rw [h.open_unique a ha b hb husr hfa hfb]
  · intro rm hrm
    obtain ⟨r0, hr0, rfl⟩ := List.mem_map.mp hrm
    by_cases hcase : (r0.user_id == s.user_id) = true
    · have heq : setCondRow s.user_id RoomCondition.off r0
          = { r0 with room_condition := RoomCondition.off } := by
        unfold setCondRow
        rw [if_pos hcase]
      rw [heq]
      constructor
      · intro hcnd
        exact absurd hcnd (by simp)
      · intro hop
        exfalso
        obtain ⟨t, ht, htu, htf⟩ := hop
        obtain ⟨a, ha, rfl⟩ := List.mem_map.mp ht
        obtain ⟨hea, hfa, hia⟩ := closeRow_of_open _ _ _ htf
        rw [hea] at htu
        have has : a.user_id = s.user_id := by
          rw [htu]
          exact eq_of_beq hcase
        have haeq := h.open_unique a ha s hs_mem has hfa hfin
        rw [haeq] at hia
        simp at hia
    · have heq : setCondRow s.user_id RoomCondition.off r0 = r0 := by
        unfold setCondRow
        rw [if_neg hcase]
      rw [heq]
      have hneq : ¬r0.user_id = s.user_id := by simpa using hcase
      constructor
      · intro hcnd
        obtain ⟨t, ht, htu, htf⟩ := (h.cond_iff r0 hr0).mp hcnd
        have htid : (t.id == s.id) = false := by
          by_contra hx
          have hx2 : (t.id == s.id) = true := by simpa using hx
          have hts := h.sessions_pk t ht s hs_mem (eq_of_beq hx2)
          rw [hts] at htu
          exact hneq htu.symm
        have hcl : closeRow s.id now t = t := by
          unfold closeRow
          rw [if_neg (by simp [htid])]
        exact ⟨closeRow s.id now t, List.mem_map_of_mem _ ht,
          by rw [hcl]; exact htu, by rw [hcl]; exact htf⟩
      · intro hop
        obtain ⟨t, ht, htu, htf⟩ := hop
        obtain ⟨a, ha, rfl⟩ := List.mem_map.mp ht
        obtain ⟨hea, hfa, _⟩ := closeRow_of_open _ _ _ htf
        rw [hea] at htu
        exact (h.cond_iff r0 hr0).mpr ⟨a, ha, htu, hfa⟩

/-- Session end preserves the invariants. -/
theorem inv_end (db : DB) (sid uid : String) (now : Nat) (h : Inv db) :
    Inv (endSession db sid uid now).2 := by
  cases hfind : db.sessions.find? (fun x => x.id == sid) with
  | none =>
    have hno : (endSession db sid uid now).2 = db := by
      simp [endSession, hfind]
    rw [hno]
    exact h
  | some s =>
    by_cases huid : (s.user_id == uid) = true
    · cases hfin : s.finished_at with
      | some t =>
        have hno : (endSession db sid uid now).2 = db := by
          simp [endSession, hfind, huid, hfin]
        rw [hno]
        exact h
      | none =>
        have heq : (endSession db sid uid now).2 = finishTx db s now := by
          simp [endSession, hfind, huid, hfin]
        rw [heq]
        have hs_mem : s ∈ db.sessions := List.mem_of_find?_eq_some hfind
        have hcore := inv_end_core db s now h hs_mem hfin
        unfold finishTx
        cases findPayment db s.user_id with
        | some p => exact inv_payments_any _ _ hcore
        | none =>
          exact inv_users_map _ _ (bumpTrialRow_id s.user_id (now - s.started_at)) hcore
    · have hno : (endSession db sid uid now).2 = db := by
        simp [endSession, hfind, huid]
      rw [hno]
      exact h

/-- Every operation preserves the invariants, so every reachable state
satisfies them. -/
theorem inv_reach (db : DB) (h : Reach db) : Inv db := by
  induction h with
  | init => exact inv_emptyDB
  | step o db2 _ ih =>
    cases o with
    | signup u rid => exact inv_signup db2 u rid ih
    | roomCreate uid rid => exact inv_roomCreate db2 uid rid ih
    | sessionStart tl uid sid now => exact inv_start tl db2 uid sid now ih
    | sessionEnd sid uid now => exact inv_end db2 sid uid now ih
    | subscribe p => exact inv_subscribe db2 p ih
    | remove uid => exact inv_remove db2 uid ih

end Vent

namespace Vent

/-- Auxiliary: the end transaction's effect on the `room` table. -/
theorem finishTx_rooms (db : DB) (s : SessionRow) (now : Nat) :
    (finishTx db s now).rooms
      = db.rooms.map (setCondRow s.user_id RoomCondition.off) := by
  unfold finishTx
  cases findPayment db s.user_id <;>
    simp [setRoomCondition, recordUsage, consumeTrial]

/-- Claim C4: in every reachable state, every user has exactly one Room row
— the signup trigger creates it atomically with the user, and the unique
index on `room(user_id)` prevents a second — and room-create for an
existing user is a strict no-op on the state, so repeated (or concurrently
retried) room-create calls cannot produce a second Room row. -/
theorem one_room_per_user :
    ∀ db : DB, Reach db →
      (∀ u ∈ db.users, ∃! r : RoomRow, r ∈ db.rooms ∧ r.user_id = u.id)
        ∧ (∀ uid rid : String, (∃ u ∈ db.users, u.id = uid) →
            getOrCreateRoom db uid rid = db) := by
  intro db hreach
  have h := inv_reach db hreach
  constructor
  · intro u hu
    obtain ⟨r, hr, hru⟩ := h.room_exists u hu
    refine ⟨r, ⟨hr, hru⟩, ?_⟩
    intro r2 hr2
    exact h.rooms_unique r2 hr2.1 r hr (by rw [hr2.2, hru])
  · intro uid rid hex
    obtain ⟨u, hu, huid⟩ := hex
    obtain ⟨r, hr, hru⟩ := h.room_exists u hu
    unfold getOrCreateRoom
    cases hfr : findRoom db uid with
    | some r2 => rfl
    | none =>
      exfalso
      refine List.find?_eq_none.mp hfr r hr ?_
      show (r.user_id == uid) = true
      rw [hru, huid]
      simp

/-- A seed user row. -/
def u1Row : UserRow :=
  { id := "u1", name := "A", age := none, trial_seconds_used := 0 }

/-- The state after one signup from the empty database. -/
def dbSeed : DB := applyOp (Op.signup u1Row "r1") emptyDB

/-- The seed state is reachable. -/
theorem reach_dbSeed : Reach dbSeed := Reach.step _ _ Reach.init

/-- Claim C4, witness: in the concrete reachable post-signup state, user
`u1` has exactly one room, and a further room-create call for `u1` changes
nothing. -/
theorem one_room_per_user_witness :
    (∃! r : RoomRow, r ∈ dbSeed.rooms ∧ r.user_id = u1Row.id)
      ∧ getOrCreateRoom dbSeed "u1" "r9" = dbSeed :=
  ⟨(one_room_per_user dbSeed reach_dbSeed).1 u1Row (by decide),
   (one_room_per_user dbSeed reach_dbSeed).2 "u1" "r9" ⟨u1Row, by decide, rfl⟩⟩

/-- Claim C5: the room condition tracks the session lifecycle.
(1) In every reachable state a room's condition is `on` exactly when its
owner has an OPEN session — that is, exactly between a successful start and
the corresponding end.  (2) A successful start inserts an OPEN session row
and sets the owner's room condition to `on`.  (3) Ending an OPEN session
sets that session's end timestamp, sets the owner's room condition to
`off`, and performs the `recordUsage` increment on the owner's subscription
rows. -/
theorem room_condition_tracks_sessions :
    (∀ db : DB, Reach db → ∀ r ∈ db.rooms,
        (r.room_condition = RoomCondition.on ↔ hasOpen db r.user_id))
      ∧ (∀ (tl : Nat) (db : DB) (uid sid : String) (now : Nat) (db2 : DB),
          startSession tl db uid sid now = (StartResult.ok sid, db2) →
          (∃ rid, db2.sessions = mkSession sid uid rid now :: db.sessions)
            ∧ ∀ r ∈ db2.rooms, r.user_id = uid →
                r.room_condition = RoomCondition.on)
      ∧ (∀ (db : DB) (sid uid : String) (now : Nat) (s : SessionRow),
          db.sessions.find? (fun x => x.id == sid) = some s →
          s.user_id = uid → s.finished_at = none →
          (endSession db sid uid now).2.sessions
              = db.sessions.map (closeRow s.id now)
            ∧ (∀ r ∈ (endSession db sid uid now).2.rooms, r.user_id = uid →
                r.room_condition = RoomCondition.off)
            ∧ (∀ p : PaymentRow, findPayment db uid = some p →
                (endSession db sid uid now).2.payments
                  = db.payments.map (bumpUsageRow uid 1))) := by
  refine ⟨?_, ?_, ?_⟩
  · intro db hreach
    exact (inv_reach db hreach).cond_iff
  · intro tl db uid sid now db2 heq
    unfold startSession at heq
    cases hq : checkQuota tl db uid with
    | false => rw [hq] at heq; simp at heq
    | true =>
      rw [hq, if_pos rfl] at heq
      cases hfr : findRoom db uid with
      | none => rw [hfr] at heq; simp at heq
      | some r =>
        rw [hfr] at heq
        cases hh : (openSessions db uid).head? with
        | some t => rw [hh] at heq; simp at heq
        | none =>
          rw [hh] at heq
          cases hfresh : db.sessions.any (fun s => s.id == sid) with
          | true =>
            rw [hfresh] at heq
            simp at heq
          | false =>
            rw [hfresh] at heq
            simp only [Bool.false_eq_true, if_false, Prod.mk.injEq] at heq
            obtain ⟨-, hdb2⟩ := heq
            subst hdb2
            constructor
            · exact ⟨r.id, rfl⟩
            · intro rm hrm hru
              simp only [setRoomCondition] at hrm
              obtain ⟨r0, hr0, rfl⟩ := List.mem_map.mp hrm
              rw [setCondRow_user_id] at hru
              have hset : setCondRow uid RoomCondition.on r0
                  = { r0 with room_condition := RoomCondition.on } := by
                unfold setCondRow
                rw [if_pos (by simp [hru])]
              rw [hset]
  · intro db sid uid now s hfind huid hfin
    have h1 : (endSession db sid uid now).2 = finishTx db s now := by
      simp [endSession, hfind, huid, hfin]
    rw [h1]
    refine ⟨finishTx_sessions db s now, ?_, ?_⟩
    · intro rm hrm hru
      rw [finishTx_rooms] at hrm
      obtain ⟨r0, hr0, rfl⟩ := List.mem_map.mp hrm
      rw [setCondRow_user_id] at hru
      have hset : setCondRow s.user_id RoomCondition.off r0
          = { r0 with room_condition := RoomCondition.off } := by
        unfold setCondRow
        rw [if_pos (by simp [hru, huid])]
      rw [hset]
    · intro p hp
      unfold finishTx
      rw [huid, hp]
      simp [recordUsage, setRoomCondition]

/-- The state after a successful session start in the seed state. -/
def dbStarted : DB := (startSession 60 dbSeed "u1" "s1" 5).2

/-- Claim C5, witness: in the concrete reachable post-signup state the
auto-created room's condition (`off`) matches the absence of an OPEN
session, and a concrete successful start yields an OPEN session row with
the room condition `on`. -/
theorem room_condition_tracks_sessions_witness :
    ((create_user_room "r1" "u1").room_condition = RoomCondition.on
        ↔ hasOpen dbSeed "u1")
      ∧ ((∃ rid, dbStarted.sessions
            = mkSession "s1" "u1" rid 5 :: dbSeed.sessions)
          ∧ ∀ r ∈ dbStarted.rooms, r.user_id = "u1" →
              r.room_condition = RoomCondition.on) :=
  ⟨room_condition_tracks_sessions.1 dbSeed reach_dbSeed
      (create_user_room "r1" "u1") (by decide),
   room_condition_tracks_sessions.2.1 60 dbSeed "u1" "s1" 5 dbStarted (by decide)⟩

end Vent
